import Mathlib

/-!
Shallow embedding of the w3c-trace-context Go library
(traceparent.go, tracestate.go, tracecontext.go) and verification of
spec claims against it.

Strings are embedded as `List Char` (Go strings here are ASCII).
Go's `(*T, error)` return convention is embedded as `Option T`.
Regular expressions are embedded by their matching semantics: anchored
fixed-width patterns become positional character-class checks, and the
unanchored patterns (`traceIdAndDashPattern`, `parentIdAndDashPattern`,
`flagsPattern`, which are compiled without `^`/`$` and used with
`MatchString` on substrings) become existential substring searches.
-/

namespace W3CTraceContext

/-- Character class `[a-f0-9]` used by all traceparent patterns. -/
def isLowerHexDigit (c : Char) : Bool :=
  (('0' ≤ c) && (c ≤ '9')) || (('a' ≤ c) && (c ≤ 'f'))

/-- Hex digits accepted by Go's `hex.DecodeString` (it also accepts uppercase). -/
def isGoHexDigit (c : Char) : Bool :=
  isLowerHexDigit c || (('A' ≤ c) && (c ≤ 'F'))

/-- Numeric value of a hex digit, matching Go's `encoding/hex` decoding. -/
def hexVal (c : Char) : Nat :=
  if c.toNat ≤ 57 then c.toNat - 48
  else if c.toNat ≤ 70 then c.toNat - 55
  else c.toNat - 87

/-- Lowercase hex digit for a value below 16, as produced by Go's `%x` formatting. -/
def hexDigitChar (n : Nat) : Char :=
  if n < 10 then Char.ofNat (48 + n) else Char.ofNat (87 + n)

/-- Go slice expression `s[a:b]` on a string. -/
def substr (s : List Char) (a b : Nat) : List Char :=
  (s.drop a).take (b - a)

/-- Every character is in `[a-f0-9]`. -/
def allHex (w : List Char) : Bool :=
  w.all isLowerHexDigit

/-- Go's `hex.DecodeString` on a two-character window, returning the byte value. -/
def decodeHexByte (w : List Char) : Option Nat :=
  match w with
  | [a, b] => if isGoHexDigit a && isGoHexDigit b then some (hexVal a * 16 + hexVal b) else none
  | _ => none

/-- `traceParentPattern.MatchString s`: the anchored regex
`^[a-f0-9]{2}-[a-f0-9]{32}-[a-f0-9]{16}-[a-f0-9]{2}$` from traceparent.go,
which matches exactly the 55-character version-traceid-parentid-flags shape. -/
def matchTraceParentStrict (s : List Char) : Bool :=
  s.length == 55 && allHex (substr s 0 2) && substr s 2 3 == ['-'] &&
    allHex (substr s 3 35) && substr s 35 36 == ['-'] &&
    allHex (substr s 36 52) && substr s 52 53 == ['-'] && allHex (substr s 53 55)

/-- `versionPattern.MatchString s`: the regex `^[a-f0-9]{2}-` (anchored only
at the start), i.e. the string starts with two hex chars and a dash. -/
def matchVersionStart (s : List Char) : Bool :=
  decide (3 ≤ s.length) && allHex (substr s 0 2) && substr s 2 3 == ['-']

/-- One candidate position for the unanchored pattern `[a-f0-9]{n}-` inside
window `w`: `n` hex characters starting at offset `i`, followed by a dash. -/
def hexRunDashAt (w : List Char) (i n : Nat) : Bool :=
  (substr w i (i + n)).length == n && allHex (substr w i (i + n)) &&
    ((w.drop (i + n)).head? == some '-')

/-- `MatchString` of the unanchored `traceIdAndDashPattern` / `parentIdAndDashPattern`
(`[a-f0-9]{n}-` with no anchors) on window `w`: the pattern occurs at some offset. -/
def containsHexRunDash (n : Nat) (w : List Char) : Bool :=
  (List.range w.length).any (fun i => hexRunDashAt w i n)

/-- `flagsPattern.MatchString`: the unanchored `[a-f0-9]{2}` occurs in `w`. -/
def containsHexRun (n : Nat) (w : List Char) : Bool :=
  (List.range (w.length + 1)).any (fun i =>
    (substr w i (i + n)).length == n && allHex (substr w i (i + n)))

/-- The struct `TraceParent` of traceparent.go. `version` and `flags` are
Go `uint8`/`byte`; every value the code constructs is below 256. -/
structure TraceParent where
  version : Nat
  traceId : List Char
  parentId : List Char
  flags : Nat
deriving Repr, DecidableEq

/-- All-zero id strings (`"000…0"`). -/
def zeros (n : Nat) : List Char :=
  List.replicate n '0'

/-- Go constant `HighestSupportedTraceContextVersion = 0`. -/
def HighestSupportedTraceContextVersion : Nat := 0

/-- Function `parseHigherVersion` of traceparent.go: the forward-compatibility
parse attempted when the version byte is above the highest supported version.
Go's early error returns are embedded as `Option` short-circuiting. -/
def parseHigherVersion (s : List Char) : Option TraceParent :=
  if s.length < 55 then none
  else if !containsHexRunDash 32 (substr s 3 37) then none
  else if !containsHexRunDash 16 (substr s 36 53) then none
  else if !containsHexRun 2 (substr s 53 55) then none
  else if !(s.length == 55 || (decide (56 ≤ s.length) && ((s.drop 55).head? == some '-'))) then none
  else
    (decodeHexByte (substr s 53 55)).map
      (fun flags => { version := HighestSupportedTraceContextVersion,
                      traceId := substr s 3 35, parentId := substr s 36 52,
                      flags := flags })

/-- Function `ParseTraceParent` of traceparent.go. -/
def ParseTraceParent (s : List Char) : Option TraceParent :=
  if matchTraceParentStrict s then
    (decodeHexByte (substr s 0 2)).bind (fun v =>
      if v == 255 then none
      else if substr s 3 35 == zeros 32 then none
      else if substr s 36 52 == zeros 16 then none
      else
        (decodeHexByte (substr s 53 55)).map
          (fun flags => { version := v, traceId := substr s 3 35,
                          parentId := substr s 36 52, flags := flags }))
  else
    if !matchVersionStart s then none
    else
      (decodeHexByte (substr s 0 2)).bind (fun v =>
        if HighestSupportedTraceContextVersion < v then parseHigherVersion s
        else none)

/-- Method `String` of TraceParent: `fmt.Sprintf("%02x-%s-%s-%02x", …)` for
byte-sized version and flags. -/
def tpString (tp : TraceParent) : List Char :=
  [hexDigitChar (tp.version / 16), hexDigitChar (tp.version % 16), '-'] ++
    tp.traceId ++ ['-'] ++ tp.parentId ++
    ['-', hexDigitChar (tp.flags / 16), hexDigitChar (tp.flags % 16)]

/-- `traceIdPattern.MatchString`: anchored `^[a-f0-9]{32}$`. -/
def matchTraceIdPat (w : List Char) : Bool :=
  w.length == 32 && allHex w

/-- `parentIdPattern.MatchString`: anchored `^[a-f0-9]{16}$`. -/
def matchParentIdPat (w : List Char) : Bool :=
  w.length == 16 && allHex w

/-- Method `SetTraceId` of TraceParent. -/
def setTraceId (tp : TraceParent) (traceId : List Char) : Option TraceParent :=
  if matchTraceIdPat traceId then some { tp with traceId := traceId } else none

/-- Method `SetParentId` of TraceParent. -/
def setParentId (tp : TraceParent) (parentId : List Char) : Option TraceParent :=
  if matchParentIdPat parentId then some { tp with parentId := parentId } else none

/-- Function `NewTraceParent` of traceparent.go: zero-value TraceParent with
`SetTraceId` then `SetParentId` applied. -/
def NewTraceParent (traceId parentId : List Char) : Option TraceParent :=
  match setTraceId { version := 0, traceId := [], parentId := [], flags := 0 } traceId with
  | none => none
  | some tp => setParentId tp parentId

/-- Method `SetSampled`: sets or clears flags bit 0
(`flags |= 1` / `flags &= ^uint8(1)`). -/
def setSampled (tp : TraceParent) (s : Bool) : TraceParent :=
  if s then { tp with flags := tp.flags ||| 1 } else { tp with flags := tp.flags &&& 254 }

/-- Method `IsSampled`: flags bit 0 is set. -/
def isSampled (tp : TraceParent) : Bool :=
  tp.flags &&& 1 != 0

/-! ## tracestate.go -/

/-- The struct `TraceStateMember` of tracestate.go. -/
structure TraceStateMember where
  key : List Char
  value : List Char
deriving Repr, DecidableEq

/-- The `Members` slice of the struct `TraceState`. -/
abbrev TraceState := List TraceStateMember

/-- Go regexp `\s`: the character class `[\t\n\f\r ]`. -/
def isGoSpace (c : Char) : Bool :=
  c == ' ' || c == '\t' || c == '\n' || c == Char.ofNat 12 || c == '\r'

/-- First character of the key grammar `[a-z0-9]`. -/
def isKeyStart (c : Char) : Bool :=
  (('a' ≤ c) && (c ≤ 'z')) || (('0' ≤ c) && (c ≤ '9'))

/-- Continuation characters of the key grammar `[a-z0-9_\-\*\/@]`. -/
def isKeyRest (c : Char) : Bool :=
  isKeyStart c || c == '_' || c == '-' || c == '*' || c == '/' || c == '@'

/-- `keyPattern.MatchString`: anchored `^[a-z0-9][a-z0-9_\-\*\/@]{0,255}$`. -/
def matchKey (w : List Char) : Bool :=
  match w with
  | [] => false
  | c :: rest => isKeyStart c && decide (rest.length ≤ 255) && rest.all isKeyRest

/-- Body characters of the value grammar `[\x20-\x2b\x2d-\x3c\x3e-\x7e]`
(printable ASCII except comma 0x2c and equals 0x3d). -/
def isValueBody (c : Char) : Bool :=
  decide (32 ≤ c.toNat) && decide (c.toNat ≤ 126) && c.toNat != 44 && c.toNat != 61

/-- Final character of the value grammar `[\x21-\x2b\x2d-\x3c\x3e-\x7e]`
(same as the body class but excluding space 0x20). -/
def isValueLast (c : Char) : Bool :=
  decide (33 ≤ c.toNat) && decide (c.toNat ≤ 126) && c.toNat != 44 && c.toNat != 61

/-- `valuePattern.MatchString`: anchored
`^[\x20-\x2b\x2d-\x3c\x3e-\x7e]{0,255}[\x21-\x2b\x2d-\x3c\x3e-\x7e]$`.
Since the pattern is anchored and its final class matches exactly one
character, a string matches iff it is nonempty, all but its last character
are body characters (at most 255 of them), and its last character is a
final-class character. -/
def matchValue (w : List Char) : Bool :=
  match w.getLast? with
  | none => false
  | some c =>
    isValueLast c && decide (w.dropLast.length ≤ 255) && w.dropLast.all isValueBody

/-- Function `parseMember` of tracestate.go, i.e.
`memberPattern.FindStringSubmatch` with the anchored pattern
`^\s*(key)=(value)\s*$` and extraction of the two capture groups.
Key characters and value characters both exclude `=`, keys start with a
non-space character and values end with a non-space character, so a match
decomposes uniquely: strip surrounding `\s` characters, split at the first
`=`, and check both sides against their grammars. -/
def parseMember (w : List Char) : Option TraceStateMember :=
  let t := ((w.dropWhile isGoSpace).reverse.dropWhile isGoSpace).reverse
  match t.findIdx? (fun c => c == '=') with
  | none => none
  | some i =>
    let k := t.take i
    let v := t.drop (i + 1)
    if matchKey k && matchValue v then some { key := k, value := v } else none

/-- Go `strings.Split(s, ",")` on character lists. -/
def splitComma : List Char → List (List Char)
  | [] => [[]]
  | c :: rest =>
    if c == ',' then [] :: splitComma rest
    else
      match splitComma rest with
      | [] => [[c]]
      | seg :: segs => (c :: seg) :: segs

/-- The member-accumulating loop of `ParseTraceState`: empty segments are
skipped, the first malformed segment aborts the whole parse. -/
def parseSegments : List (List Char) → Option TraceState
  | [] => some []
  | seg :: rest =>
    if seg.length == 0 then parseSegments rest
    else
      match parseMember seg with
      | none => none
      | some m => (parseSegments rest).map (fun ms => m :: ms)

/-- Function `ParseTraceState` of tracestate.go. -/
def ParseTraceState (s : List Char) : Option TraceState :=
  parseSegments (splitComma s)

/-- The removal step inside `Mutate` (tracestate.go): `slices.IndexFunc`
finds the first index whose member satisfies `p`; if found, that entry is
removed in place (`copy` shift plus length truncation, i.e. erase at the
index), otherwise the list is unchanged. -/
def removeFirstBy (p : TraceStateMember → Bool) (ts : TraceState) : TraceState :=
  match ts.findIdx? p with
  | none => ts
  | some i => ts.eraseIdx i

/-- The capacity step inside `Mutate` (tracestate.go): if the list holds
more than 32 members, keep only the leftmost 32. -/
def truncate32 (ms : TraceState) : TraceState :=
  if 32 < ms.length then ms.take 32 else ms

/-- Method `Mutate` of TraceState (tracestate.go): validate key and value,
remove the first member with the same key, prepend the new member, and
apply the 32-member capacity truncation. -/
def Mutate (ts : TraceState) (key value : List Char) : Option TraceState :=
  if !matchKey key then none
  else if !matchValue value then none
  else some (truncate32
    ({ key := key, value := value } :: removeFirstBy (fun m => m.key == key) ts))

/-- Method `String` of TraceState: members joined as `key=value` with `,`. -/
def tsString (ts : TraceState) : List Char :=
  List.intercalate [','] (ts.map (fun m => m.key ++ '=' :: m.value))

/-- Function `NewEmptyTraceState` of tracestate.go. -/
def NewEmptyTraceState : TraceState := []

/-- Function `NewTraceState` of tracestate.go: mutate an empty TraceState. -/
def NewTraceState (key value : List Char) : Option TraceState :=
  Mutate NewEmptyTraceState key value

/-! ## tracecontext.go

The `http.Header` container is embedded as an association list of
header-name/value pairs.  The code only ever uses `Get` (first value, empty
string when absent), `Set` (replace), `Del` (remove) and `Clone`
(independent copy), so a single-valued association list is a faithful
model of the operations used; `Clone` is the identity in this pure
embedding.  Header names are `String`s used only as exact keys. -/

/-- The header container abstraction used by tracecontext.go. -/
abbrev Headers := List (String × List Char)

/-- `http.Header.Get`: first value for the name, or the empty string. -/
def hGet (h : Headers) (n : String) : List Char :=
  match h.find? (fun p => p.1 == n) with
  | some p => p.2
  | none => []

/-- Presence of a header line with the given name. -/
def hFind (h : Headers) (n : String) : Option (List Char) :=
  (h.find? (fun p => p.1 == n)).map (fun p => p.2)

/-- `http.Header.Set`: replace all values for the name with one value. -/
def hSet (h : Headers) (n : String) (v : List Char) : Headers :=
  (n, v) :: h.filter (fun p => !(p.1 == n))

/-- `http.Header.Del`: remove all values for the name. -/
def hDel (h : Headers) (n : String) : Headers :=
  h.filter (fun p => !(p.1 == n))

/-- The `SamplingBehavior` enum constants of traceparent.go. -/
inductive SamplingBehavior where
  | passThrough
  | alwaysSampled
  | neverSampled
deriving Repr, DecidableEq

/-- Method `applySamplingBehavior` of TraceParent.  The Go version returns
an error for a numeric value outside the enum; the enum is closed here, so
that branch is unreachable and the function is total. -/
def applySamplingBehavior (tp : TraceParent) : SamplingBehavior → TraceParent
  | .passThrough => tp
  | .alwaysSampled => setSampled tp true
  | .neverSampled => setSampled tp false

/-- The struct `TraceContext` of tracecontext.go.  `TraceParent` is always
non-nil in every context the code constructs; `TraceState` is a nullable
pointer left nil by `ParseTraceContext` when the tracestate header fails to
parse, hence an `Option`. -/
structure TraceContext where
  traceParent : TraceParent
  traceState : Option TraceState
deriving Repr, DecidableEq

/-- Go constants `TraceParentHeader` and `TraceStateHeader`. -/
def TraceParentHeader : String := "traceparent"

/-- Header name of the tracestate header. -/
def TraceStateHeader : String := "tracestate"

/-- Function `ParseTraceContext` of tracecontext.go: a traceparent parse
failure is returned as an error; a tracestate parse failure leaves
`TraceState` nil and is not an error. -/
def ParseTraceContext (h : Headers) : Option TraceContext :=
  match ParseTraceParent (hGet h TraceParentHeader) with
  | none => none
  | some tp =>
    match ParseTraceState (hGet h TraceStateHeader) with
    | none => some { traceParent := tp, traceState := none }
    | some ts => some { traceParent := tp, traceState := some ts }

/-- Modelled from the spec: `randomHex` is not part of the provided sources
(only its callers are).  Per the spec it draws `n` random bytes from the
external SecureRandomSource and hex-encodes them — producing `2n` lowercase
hex characters — and fails when the source is unavailable.  The source
being external, each potential draw's outcome is passed in explicitly:
`rndTrace` is the outcome of the `randomHex(16)` draw for a fresh trace id
and `rndParent` the outcome of the `randomHex(8)` draw for a fresh parent
id (`none` models a random-source failure). -/
structure RandomDraws where
  rndTrace : Option (List Char)
  rndParent : Option (List Char)
deriving Repr, DecidableEq

/-- Function `GenerateTraceContext` of tracecontext.go.  Go's early error
returns become `Option` short-circuiting; a member with an empty value has
the value defaulted to the (possibly freshly drawn) parent id. -/
def GenerateTraceContext (r : RandomDraws) (parentId : List Char)
    (member : Option TraceStateMember) (sampling : SamplingBehavior) :
    Option TraceContext :=
  r.rndTrace.bind (fun traceId =>
    (if parentId.isEmpty then r.rndParent else some parentId).bind (fun pid =>
      (NewTraceParent traceId pid).bind (fun tp0 =>
        match member with
        | none => some { traceParent := applySamplingBehavior tp0 sampling,
                         traceState := some NewEmptyTraceState }
        | some m =>
          (NewTraceState m.key (if m.value.isEmpty then pid else m.value)).map
            (fun ts => { traceParent := applySamplingBehavior tp0 sampling,
                         traceState := some ts }))))

/-- Method `Mutate` of TraceContext (tracecontext.go).  The Go method
mutates in place and returns an error; since `HandleTraceContext` ignores
that error on the parse-success path, the embedding returns the context as
left by the method together with the success flag.  The nil-TraceParent
error branch is unreachable here because `traceParent` is not nullable in
this embedding.  Note the Go code discards the error of
`tc.TraceState.Mutate(...)` on the non-nil tracestate branch, so a failed
tracestate mutation leaves the members unchanged and still counts as
success. -/
def tcMutate (rndParent : Option (List Char)) (tc : TraceContext)
    (parentId : List Char) (sampling : SamplingBehavior)
    (member : Option TraceStateMember) : TraceContext × Bool :=
  match (if parentId.isEmpty then rndParent else some parentId) with
  | none => (tc, false)
  | some pid =>
    match setParentId tc.traceParent pid with
    | none => (tc, false)
    | some tp1 =>
      let tp2 := applySamplingBehavior tp1 sampling
      match member with
      | none => ({ tc with traceParent := tp2 }, true)
      | some m =>
        let mv := if m.value.isEmpty then pid else m.value
        match tc.traceState with
        | none =>
          match NewTraceState m.key mv with
          | none => ({ tc with traceParent := tp2 }, false)
          | some ts => ({ traceParent := tp2, traceState := some ts }, true)
        | some ts =>
          ({ traceParent := tp2,
             traceState := some ((Mutate ts m.key mv).getD ts) }, true)

/-- Method `WriteHeaders` of TraceContext: always set traceparent (it is
never nil here), then set tracestate only when present and non-empty. -/
def writeHeaders (tc : TraceContext) (h : Headers) : Headers :=
  match tc.traceState with
  | some ts =>
    if 0 < ts.length then
      hSet (hSet h TraceParentHeader (tpString tc.traceParent))
        TraceStateHeader (tsString ts)
    else hSet h TraceParentHeader (tpString tc.traceParent)
  | none => hSet h TraceParentHeader (tpString tc.traceParent)

/-- Function `HandleTraceContext` of tracecontext.go.  The error returned
by `newTraceContext.Mutate` on the parse-success branch is discarded by the
Go code, mirrored here by dropping the success flag. -/
def HandleTraceContext (r : RandomDraws) (h : Headers) (parentId : List Char)
    (member : Option TraceStateMember) (sampling : SamplingBehavior) :
    Option (Headers × TraceContext) :=
  if hGet h TraceParentHeader != [] then
    match ParseTraceContext h with
    | none =>
      (GenerateTraceContext r parentId member sampling).map
        (fun tc => (writeHeaders tc (hDel h TraceStateHeader), tc))
    | some tc =>
      some (writeHeaders (tcMutate r.rndParent tc parentId sampling member).1 h,
            (tcMutate r.rndParent tc parentId sampling member).1)
  else
    (GenerateTraceContext r parentId member sampling).map
      (fun tc => (writeHeaders tc (hDel h TraceStateHeader), tc))

/-! ## Shared concrete values and helper lemmas -/

/-- The example trace id used throughout the repository's tests. -/
def tid0 : List Char := "0af7651916cd43dd8448eb211c80319c".toList

/-- The example parent id used throughout the repository's tests. -/
def pid0 : List Char := "00f067aa0ba902b7".toList

theorem mutate_of_valid (ts : TraceState) (key value : List Char)
    (hk : matchKey key = true) (hv : matchValue value = true) :
    Mutate ts key value =
      some (truncate32
        ({ key := key, value := value } :: removeFirstBy (fun m => m.key == key) ts)) := by
  unfold Mutate
  rw [hk, hv]
  rfl

theorem truncate32_eq_take (ms : TraceState) : truncate32 ms = ms.take 32 := by
  unfold truncate32
  split
  · rfl
  · rw [List.take_of_length_le (by omega)]

theorem filter_ne_of_filter_eq_nil {key : List Char} {ts : TraceState}
    (h : ts.filter (fun m => m.key == key) = []) :
    ts.filter (fun m => !(m.key == key)) = ts := by
  rw [List.filter_eq_self]
  intro a ha
  have := (List.filter_eq_nil_iff.mp h) a ha
  simp only [Bool.not_eq_true] at this
  simp [this]

theorem removeFirstBy_of_none {p : TraceStateMember → Bool} {ts : TraceState}
    (h : ts.findIdx? p = none) : removeFirstBy p ts = ts := by
  unfold removeFirstBy
  rw [h]

theorem removeFirstBy_of_some {p : TraceStateMember → Bool} {ts : TraceState} {i : Nat}
    (h : ts.findIdx? p = some i) : removeFirstBy p ts = ts.eraseIdx i := by
  unfold removeFirstBy
  rw [h]

theorem removeFirst_eq_filter (ts : TraceState) (key : List Char)
    (h : (ts.filter (fun m => m.key == key)).length ≤ 1) :
    removeFirstBy (fun m => m.key == key) ts =
      ts.filter (fun m => !(m.key == key)) := by
  induction ts with
  | nil => rfl
  | cons m rest ih =>
    by_cases hm : (m.key == key) = true
    · rw [removeFirstBy_of_some (by rw [List.findIdx?_cons, if_pos hm]),
        List.eraseIdx_cons_zero, List.filter_cons, if_neg (by simp [hm])]
      have hrest : rest.filter (fun m => m.key == key) = [] := by
        rw [List.filter_cons, if_pos hm] at h
        have hle : (rest.filter (fun m => m.key == key)).length = 0 := by
          simp only [List.length_cons] at h
          omega
        exact List.length_eq_zero.mp hle
      exact (filter_ne_of_filter_eq_nil hrest).symm
    · have h' : (rest.filter (fun m => m.key == key)).length ≤ 1 := by
        rw [List.filter_cons, if_neg hm] at h
        exact h
      rw [List.filter_cons, if_pos (by simp only [Bool.not_eq_true] at hm ⊢; simp [hm])]
      cases hfi : rest.findIdx? (fun m => m.key == key) with
      | none =>
        rw [removeFirstBy_of_none
          (by rw [List.findIdx?_cons, if_neg hm, List.findIdx?_succ, hfi]; rfl)]
        rw [← ih h', removeFirstBy_of_none hfi]
      | some i =>
        rw [removeFirstBy_of_some
          (by rw [List.findIdx?_cons, if_neg hm, List.findIdx?_succ, hfi]; rfl)]
        rw [List.eraseIdx_cons_succ, ← ih h', removeFirstBy_of_some hfi]

/-! ## Claim C1 -/

/-- C1: the claim states that every successfully parsed traceparent has
version 0x00, higher inbound versions being downgraded at parse time, in
particular for a 55-character version-01 traceparent with no trailing
fields.  The code refutes this: the strict pattern
`^[a-f0-9]{2}-…$` matches any version byte, so the 55-character version-01
header below parses on the strict path and the returned TraceParent
retains version 0x01, above the highest supported version 0x00. -/
theorem c1_strict_path_retains_higher_version :
    ParseTraceParent
        ("01-0af7651916cd43dd8448eb211c80319c-00f067aa0ba902b7-01".toList) =
      some { version := 1, traceId := tid0, parentId := pid0, flags := 1 } ∧
    HighestSupportedTraceContextVersion < 1 := by
  constructor
  · decide
  · decide

/-! ## Claim C2 -/

/-- C2 counterexample: the claim states that every string accepted by
`ParseTraceParent` (on either path) has a non-all-zero trace id and parent
id.  The forward-compatible path (`parseHigherVersion`) never performs the
all-zero checks: this version-01 header with a trailing vendor field and
all-zero ids parses successfully. -/
theorem c2_counterexample :
    ParseTraceParent
        ("01-00000000000000000000000000000000-0000000000000000-00-a".toList) =
      some { version := 0, traceId := zeros 32, parentId := zeros 16, flags := 0 } := by
  decide

/-- C2 (amended): for every string accepted by `ParseTraceParent` on the
strict version-00 pattern path, the returned trace id is not the all-zero
32-hex string and the parent id is not the all-zero 16-hex string; the
forward-compatible higher-version path does not enforce this. -/
theorem c2_strict_path_ids_nonzero (s : List Char) (tp : TraceParent)
    (hs : matchTraceParentStrict s = true)
    (h : ParseTraceParent s = some tp) :
    tp.traceId ≠ zeros 32 ∧ tp.parentId ≠ zeros 16 := by
  unfold ParseTraceParent at h
  rw [if_pos hs] at h
  cases hv : decodeHexByte (substr s 0 2) with
  | none => rw [hv] at h; exact absurd h (by simp)
  | some v =>
    rw [hv, Option.some_bind] at h
    split at h
    · exact absurd h (by simp)
    · split at h
      · exact absurd h (by simp)
      · split at h
        · exact absurd h (by simp)
        · cases hf : decodeHexByte (substr s 53 55) with
          | none => rw [hf] at h; exact absurd h (by simp)
          | some fl =>
            rw [hf, Option.map_some'] at h
            injection h with h'
            subst h'
            refine ⟨?_, ?_⟩ <;> simp_all [beq_iff_eq]

/-- C2 witness: the amended theorem applied to the canonical valid
traceparent header. -/
theorem c2_strict_path_ids_nonzero_witness :
    tid0 ≠ zeros 32 ∧ pid0 ≠ zeros 16 :=
  c2_strict_path_ids_nonzero
    ("00-0af7651916cd43dd8448eb211c80319c-00f067aa0ba902b7-01".toList)
    { version := 0, traceId := tid0, parentId := pid0, flags := 1 }
    (by decide) (by decide)

/-! ## Claim C4 -/

/-- C4 counterexample: the claim quantifies over every TraceState with at
most 32 members and asserts that a successful `Mutate` removes any
previously existing member with the same key.  A raw-parsed TraceState may
contain a duplicate key, and `Mutate` removes only the first occurrence:
here the second member with key `dup` survives the mutation. -/
theorem c4_counterexample :
    Mutate [{ key := "dup".toList, value := "a".toList },
            { key := "dup".toList, value := "b".toList }]
        "dup".toList "c".toList =
      some [{ key := "dup".toList, value := "c".toList },
            { key := "dup".toList, value := "b".toList }] := by
  decide

/-- C4 (amended): for every TraceState with at most 32 members *at most one
of which carries the given key* (duplicate keys can only come from raw
parsing; `Mutate` removes just the first occurrence), a successful
`Mutate(key, value)` removes the member with that key preserving the
relative order of the others, inserts the new member at position 0, and
discards rightmost entries beyond 32: the result is the first 32 entries
of the new member prepended to the key-filtered list.  In particular,
mutating a 32-member TraceState with a fresh key keeps the length at 32
and evicts the previously rightmost member. -/
theorem c4_mutate_move_to_front (ts : TraceState) (key value : List Char)
    (hk : matchKey key = true) (hv : matchValue value = true)
    (hlen : ts.length ≤ 32)
    (huniq : (ts.filter (fun m => m.key == key)).length ≤ 1) :
    Mutate ts key value =
      some (({ key := key, value := value } ::
        ts.filter (fun m => !(m.key == key))).take 32) ∧
    (ts.length = 32 → ts.filter (fun m => m.key == key) = [] →
      Mutate ts key value =
        some ({ key := key, value := value } :: ts.dropLast)) := by
  have hmain : Mutate ts key value =
      some (({ key := key, value := value } ::
        ts.filter (fun m => !(m.key == key))).take 32) := by
    rw [mutate_of_valid _ _ _ hk hv, truncate32_eq_take, removeFirst_eq_filter _ _ huniq]
  refine ⟨hmain, fun h32 hnone => ?_⟩
  rw [hmain, filter_ne_of_filter_eq_nil hnone]
  congr 1
  calc ({ key := key, value := value } :: ts).take 32
      = ({ key := key, value := value } :: ts).take (31 + 1) := by norm_num
    _ = { key := key, value := value } :: ts.take 31 := List.take_succ_cons
    _ = { key := key, value := value } :: ts.dropLast := by
        rw [List.dropLast_eq_take, h32]

/-- C4 witness: the amended theorem applied to the two-member TraceState of
the repository's mutation test. -/
theorem c4_mutate_move_to_front_witness :
    Mutate [{ key := "member1".toList, value := "value1".toList },
            { key := "member2".toList, value := "value2".toList }]
        "member3".toList "value3".toList =
      some (({ key := "member3".toList, value := "value3".toList } ::
        ([{ key := "member1".toList, value := "value1".toList },
          { key := "member2".toList, value := "value2".toList }] : TraceState).filter
            (fun m => !(m.key == "member3".toList))).take 32) :=
  (c4_mutate_move_to_front _ _ _ (by decide) (by decide) (by decide) (by decide)).1

/-! ## Claim C6 -/

theorem parseSegments_eq_none_iff (segs : List (List Char)) :
    parseSegments segs = none ↔ ∃ seg ∈ segs, seg ≠ [] ∧ parseMember seg = none := by
  induction segs with
  | nil => simp [parseSegments]
  | cons seg rest ih =>
    unfold parseSegments
    by_cases hlen : (seg.length == 0) = true
    · rw [if_pos hlen]
      have hseg : seg = [] := List.length_eq_zero.mp (by simpa using hlen)
      subst hseg
      simp [ih]
    · rw [if_neg hlen]
      have hne : seg ≠ [] := by
        intro hc
        subst hc
        simp at hlen
      cases hpm : parseMember seg with
      | none => simp [hne, hpm]
      | some m =>
        rw [Option.map_eq_none', ih]
        simp [hpm]

/-- C6 counterexample: the claim states that a whitespace-only input
succeeds and yields a zero-member TraceState.  The code splits on commas
and fails on any non-empty segment that does not match the member grammar;
a single space is such a segment, so the parse fails. -/
theorem c6_counterexample :
    ParseTraceState [' '] = none ∧ isGoSpace ' ' = true := by
  exact ⟨by decide, by decide⟩

/-- C6 (amended): `ParseTraceState` fails iff some comma-separated
non-empty segment does not match the `key=value` member grammar with its
surrounding whitespace tolerated (all-or-nothing: no partial list is ever
returned); the empty input succeeds with a zero-member TraceState, but a
non-empty whitespace-only input is a non-empty malformed segment and
fails. -/
theorem c6_parse_tracestate_all_or_nothing (s : List Char) :
    (ParseTraceState s = none ↔
      ∃ seg ∈ splitComma s, seg ≠ [] ∧ parseMember seg = none) ∧
    ParseTraceState [] = some [] :=
  ⟨parseSegments_eq_none_iff (splitComma s), by decide⟩

/-! ## Claim C7 -/

/-- Concrete header container with a valid traceparent and a malformed
tracestate. -/
def hdrs7 : Headers :=
  [(TraceParentHeader, "00-0af7651916cd43dd8448eb211c80319c-00f067aa0ba902b7-01".toList),
   (TraceStateHeader, "invalid".toList)]

/-- C7 counterexample: the claim states that when the tracestate header
fails to parse, the returned TraceContext's traceState is present (not
absent/nil) with zero members.  The code only assigns `TraceState` on a
successful tracestate parse, so it stays nil (`none`), not an empty list. -/
theorem c7_counterexample :
    ParseTraceContext hdrs7 =
      some { traceParent := { version := 0, traceId := tid0, parentId := pid0, flags := 1 },
             traceState := none } ∧
    ParseTraceState (hGet hdrs7 TraceStateHeader) = none := by
  exact ⟨by decide, by decide⟩

/-- C7 (amended): for every header container whose traceparent header
parses successfully and whose tracestate header fails to parse,
`ParseTraceContext` returns without error and carries the parsed
TraceParent unchanged, with `traceState` left absent (nil) — the
tracestate failure never affects traceparent handling. -/
theorem c7_traceparent_kept_tracestate_nil (h : Headers) (tp : TraceParent)
    (htp : ParseTraceParent (hGet h TraceParentHeader) = some tp)
    (hts : ParseTraceState (hGet h TraceStateHeader) = none) :
    ParseTraceContext h = some { traceParent := tp, traceState := none } := by
  unfold ParseTraceContext
  rw [htp, hts]

/-- C7 witness: the amended theorem applied to the concrete container. -/
theorem c7_traceparent_kept_tracestate_nil_witness :
    ParseTraceContext hdrs7 =
      some { traceParent := { version := 0, traceId := tid0, parentId := pid0, flags := 1 },
             traceState := none } :=
  c7_traceparent_kept_tracestate_nil hdrs7
    { version := 0, traceId := tid0, parentId := pid0, flags := 1 }
    (by decide) (by decide)

/-! ## Claim C8 -/

/-- C8 counterexample: the claim asserts key uniqueness after `Mutate` even
for raw-parsed TraceStates with duplicate keys.  Mutating a list that
already holds two members with key `congo` removes only the first: the
result still holds two members with that key. -/
theorem c8_counterexample :
    Mutate [{ key := "congo".toList, value := "one".toList },
            { key := "congo".toList, value := "two".toList }]
        "congo".toList "three".toList =
      some [{ key := "congo".toList, value := "three".toList },
            { key := "congo".toList, value := "two".toList }] ∧
    (([{ key := "congo".toList, value := "three".toList },
       { key := "congo".toList, value := "two".toList }] : TraceState).filter
        (fun m => m.key == "congo".toList)).length = 2 := by
  exact ⟨by decide, by decide⟩

/-- C8 (amended): mutation enforces key uniqueness on every TraceState that
holds at most one member with the mutated key (which is every state
reachable by mutation alone; raw parsing can produce duplicates, of which
`Mutate` removes only the first): after a successful `Mutate(key, value)`
exactly one member carries that key. -/
theorem c8_mutate_unique_key (ts : TraceState) (key value : List Char) (res : TraceState)
    (huniq : (ts.filter (fun m => m.key == key)).length ≤ 1)
    (h : Mutate ts key value = some res) :
    (res.filter (fun m => m.key == key)).length = 1 := by
  unfold Mutate at h
  split at h
  · exact absurd h (by simp)
  · split at h
    · exact absurd h (by simp)
    · injection h with h'
      subst h'
      rw [truncate32_eq_take, removeFirst_eq_filter _ _ huniq,
        show (32 : Nat) = 31 + 1 from rfl, List.take_succ_cons,
        List.filter_cons, if_pos (by simp)]
      have hnil : (List.take 31 (ts.filter (fun m => !(m.key == key)))).filter
          (fun m => m.key == key) = [] := by
        rw [List.filter_eq_nil_iff]
        intro a ha
        have ha' := List.of_mem_filter (List.mem_of_mem_take ha)
        simp_all
      rw [hnil]
      rfl

/-- C8 witness: the amended theorem applied to a singleton TraceState whose
only key is replaced. -/
theorem c8_mutate_unique_key_witness :
    (([{ key := "congo".toList, value := "new1".toList }] : TraceState).filter
      (fun m => m.key == "congo".toList)).length = 1 :=
  c8_mutate_unique_key [{ key := "congo".toList, value := "old1".toList }]
    "congo".toList "new1".toList
    [{ key := "congo".toList, value := "new1".toList }]
    (by decide) (by decide)

/-! ## Claim C9 -/

theorem hexDigitChar_isHex : ∀ n, n < 16 → isLowerHexDigit (hexDigitChar n) = true := by
  decide

theorem hexDigitChar_isGoHex : ∀ n, n < 16 → isGoHexDigit (hexDigitChar n) = true := by
  decide

theorem hexVal_hexDigitChar : ∀ n, n < 16 → hexVal (hexDigitChar n) = n := by
  decide

/-- C9 counterexample: the claim asserts `parse(serialize(tp)) == tp` for
every validly constructed TraceParent.  `NewTraceParent` validates only the
hex format of the ids, not the all-zero prohibition, so an all-zero trace
id is validly constructible; its serialization is then rejected by
`ParseTraceParent`. -/
theorem c9_counterexample :
    NewTraceParent (zeros 32) ("0000000000000001".toList) =
      some { version := 0, traceId := zeros 32,
             parentId := "0000000000000001".toList, flags := 0 } ∧
    ParseTraceParent (tpString
      { version := 0, traceId := zeros 32,
        parentId := "0000000000000001".toList, flags := 0 }) = none := by
  exact ⟨by decide, by decide⟩

/-- C9 (amended): for every validly constructed TraceParent — version 0,
flags a byte, trace id matching the 32-lowercase-hex pattern, parent id
matching the 16-lowercase-hex pattern — *whose ids are not all-zero*,
parsing its serialization returns the same TraceParent field by field. -/
theorem c9_roundtrip (tp : TraceParent)
    (hver : tp.version = 0) (hfl : tp.flags < 256)
    (ht : matchTraceIdPat tp.traceId = true) (htz : tp.traceId ≠ zeros 32)
    (hp : matchParentIdPat tp.parentId = true) (hpz : tp.parentId ≠ zeros 16) :
    ParseTraceParent (tpString tp) = some tp := by
  obtain ⟨v, tid, pid, fl⟩ := tp
  dsimp only at hver hfl ht htz hp hpz
  subst hver
  have htl : tid.length = 32 := by
    unfold matchTraceIdPat at ht
    rw [Bool.and_eq_true] at ht
    exact beq_iff_eq.mp ht.1
  have hth : allHex tid = true := by
    unfold matchTraceIdPat at ht
    rw [Bool.and_eq_true] at ht
    exact ht.2
  have hpl : pid.length = 16 := by
    unfold matchParentIdPat at hp
    rw [Bool.and_eq_true] at hp
    exact beq_iff_eq.mp hp.1
  have hph : allHex pid = true := by
    unfold matchParentIdPat at hp
    rw [Bool.and_eq_true] at hp
    exact hp.2
  have hd1 : fl / 16 < 16 := Nat.div_lt_of_lt_mul (by omega)
  have hd2 : fl % 16 < 16 := Nat.mod_lt _ (by norm_num)
  have hS : tpString { version := 0, traceId := tid, parentId := pid, flags := fl } =
      '0' :: '0' :: '-' :: (tid ++ '-' ::
        (pid ++ ['-', hexDigitChar (fl / 16), hexDigitChar (fl % 16)])) := by
    unfold tpString
    simp [List.append_assoc, show hexDigitChar (0 / 16) = '0' from by decide,
      show hexDigitChar (0 % 16) = '0' from by decide]
  rw [hS]
  have hdrop3 : ('0' :: '0' :: '-' :: (tid ++ '-' ::
      (pid ++ ['-', hexDigitChar (fl / 16), hexDigitChar (fl % 16)]))).drop 3 =
      tid ++ '-' :: (pid ++ ['-', hexDigitChar (fl / 16), hexDigitChar (fl % 16)]) := rfl
  have hsub02 : substr ('0' :: '0' :: '-' :: (tid ++ '-' ::
      (pid ++ ['-', hexDigitChar (fl / 16), hexDigitChar (fl % 16)]))) 0 2 = ['0', '0'] := rfl
  have hsub23 : substr ('0' :: '0' :: '-' :: (tid ++ '-' ::
      (pid ++ ['-', hexDigitChar (fl / 16), hexDigitChar (fl % 16)]))) 2 3 = ['-'] := rfl
  have hsub335 : substr ('0' :: '0' :: '-' :: (tid ++ '-' ::
      (pid ++ ['-', hexDigitChar (fl / 16), hexDigitChar (fl % 16)]))) 3 35 = tid := by
    unfold substr
    rw [hdrop3]
    exact List.take_left' htl
  have hdrop35 : ('0' :: '0' :: '-' :: (tid ++ '-' ::
      (pid ++ ['-', hexDigitChar (fl / 16), hexDigitChar (fl % 16)]))).drop 35 =
      '-' :: (pid ++ ['-', hexDigitChar (fl / 16), hexDigitChar (fl % 16)]) := by
    have h1 := List.drop_drop (l := ('0' :: '0' :: '-' :: (tid ++ '-' ::
      (pid ++ ['-', hexDigitChar (fl / 16), hexDigitChar (fl % 16)])))) (n := 32) (m := 3)
    rw [show (32 : Nat) + 3 = 35 from rfl] at h1
    rw [← h1, hdrop3, List.drop_left' htl]
  have hsub3536 : substr ('0' :: '0' :: '-' :: (tid ++ '-' ::
      (pid ++ ['-', hexDigitChar (fl / 16), hexDigitChar (fl % 16)]))) 35 36 = ['-'] := by
    unfold substr
    rw [hdrop35]
    rfl
  have hdrop36 : ('0' :: '0' :: '-' :: (tid ++ '-' ::
      (pid ++ ['-', hexDigitChar (fl / 16), hexDigitChar (fl % 16)]))).drop 36 =
      pid ++ ['-', hexDigitChar (fl / 16), hexDigitChar (fl % 16)] := by
    have h1 := List.drop_drop (l := ('0' :: '0' :: '-' :: (tid ++ '-' ::
      (pid ++ ['-', hexDigitChar (fl / 16), hexDigitChar (fl % 16)])))) (n := 1) (m := 35)
    rw [show (1 : Nat) + 35 = 36 from rfl] at h1
    rw [← h1, hdrop35]
    rfl
  have hsub3652 : substr ('0' :: '0' :: '-' :: (tid ++ '-' ::
      (pid ++ ['-', hexDigitChar (fl / 16), hexDigitChar (fl % 16)]))) 36 52 = pid := by
    unfold substr
    rw [hdrop36]
    exact List.take_left' hpl
  have hdrop52 : ('0' :: '0' :: '-' :: (tid ++ '-' ::
      (pid ++ ['-', hexDigitChar (fl / 16), hexDigitChar (fl % 16)]))).drop 52 =
      ['-', hexDigitChar (fl / 16), hexDigitChar (fl % 16)] := by
    have h1 := List.drop_drop (l := ('0' :: '0' :: '-' :: (tid ++ '-' ::
      (pid ++ ['-', hexDigitChar (fl / 16), hexDigitChar (fl % 16)])))) (n := 16) (m := 36)
    rw [show (16 : Nat) + 36 = 52 from rfl] at h1
    rw [← h1, hdrop36, List.drop_left' hpl]
  have hsub5253 : substr ('0' :: '0' :: '-' :: (tid ++ '-' ::
      (pid ++ ['-', hexDigitChar (fl / 16), hexDigitChar (fl % 16)]))) 52 53 = ['-'] := by
    unfold substr
    rw [hdrop52]
    rfl
  have hsub5355 : substr ('0' :: '0' :: '-' :: (tid ++ '-' ::
      (pid ++ ['-', hexDigitChar (fl / 16), hexDigitChar (fl % 16)]))) 53 55 =
      [hexDigitChar (fl / 16), hexDigitChar (fl % 16)] := by
    unfold substr
    have h1 := List.drop_drop (l := ('0' :: '0' :: '-' :: (tid ++ '-' ::
      (pid ++ ['-', hexDigitChar (fl / 16), hexDigitChar (fl % 16)])))) (n := 1) (m := 52)
    rw [show (1 : Nat) + 52 = 53 from rfl] at h1
    rw [← h1, hdrop52]
    rfl
  have hlen55 : ('0' :: '0' :: '-' :: (tid ++ '-' ::
      (pid ++ ['-', hexDigitChar (fl / 16), hexDigitChar (fl % 16)]))).length = 55 := by
    simp [htl, hpl]
  have hf12 : allHex [hexDigitChar (fl / 16), hexDigitChar (fl % 16)] = true := by
    simp [allHex, hexDigitChar_isHex _ hd1, hexDigitChar_isHex _ hd2]
  have hstrict : matchTraceParentStrict ('0' :: '0' :: '-' :: (tid ++ '-' ::
      (pid ++ ['-', hexDigitChar (fl / 16), hexDigitChar (fl % 16)]))) = true := by
    unfold matchTraceParentStrict
    rw [hlen55, hsub02, hsub23, hsub335, hsub3536, hsub3652, hsub5253, hsub5355]
    simp [hth, hph, hf12, show allHex ['0', '0'] = true from by decide]
  have hdec : decodeHexByte [hexDigitChar (fl / 16), hexDigitChar (fl % 16)] = some fl := by
    show (if isGoHexDigit (hexDigitChar (fl / 16)) && isGoHexDigit (hexDigitChar (fl % 16))
          then some (hexVal (hexDigitChar (fl / 16)) * 16 + hexVal (hexDigitChar (fl % 16)))
          else none) = some fl
    rw [if_pos (by rw [Bool.and_eq_true]
                   exact ⟨hexDigitChar_isGoHex _ hd1, hexDigitChar_isGoHex _ hd2⟩),
      hexVal_hexDigitChar _ hd1, hexVal_hexDigitChar _ hd2]
    exact congrArg some (by omega)
  unfold ParseTraceParent
  rw [if_pos hstrict, hsub02,
    show decodeHexByte ['0', '0'] = some 0 from by decide]
  simp only [Option.some_bind]
  rw [if_neg (by decide), hsub335,
    if_neg (fun hc => htz (beq_iff_eq.mp hc)), hsub3652,
    if_neg (fun hc => hpz (beq_iff_eq.mp hc)), hsub5355, hdec, Option.map_some']

/-- C9 witness: the amended round-trip applied to the canonical sampled
TraceParent of the repository's tests. -/
theorem c9_roundtrip_witness :
    ParseTraceParent (tpString { version := 0, traceId := tid0, parentId := pid0, flags := 1 }) =
      some { version := 0, traceId := tid0, parentId := pid0, flags := 1 } :=
  c9_roundtrip { version := 0, traceId := tid0, parentId := pid0, flags := 1 }
    (by decide) (by decide) (by decide) (by decide) (by decide) (by decide)

/-! ## Header-container lemmas for the orchestrator claims -/

theorem find?_filter_of_imp {α : Type} (l : List α) (p q : α → Bool)
    (himp : ∀ x, p x = true → q x = true) :
    (l.filter q).find? p = l.find? p := by
  induction l with
  | nil => rfl
  | cons a rest ih =>
    rw [List.filter_cons]
    by_cases hq : q a = true
    · rw [if_pos hq]
      by_cases hp : p a = true
      · rw [List.find?_cons_of_pos _ hp, List.find?_cons_of_pos _ hp]
      · rw [List.find?_cons_of_neg _ hp, List.find?_cons_of_neg _ hp, ih]
    · rw [if_neg hq]
      have hp : ¬ p a = true := fun hpa => hq (himp a hpa)
      rw [List.find?_cons_of_neg _ hp, ih]

theorem hFind_hSet_ne (h : Headers) (n m : String) (v : List Char) (hne : m ≠ n) :
    hFind (hSet h n v) m = hFind h m := by
  unfold hFind hSet
  rw [List.find?_cons_of_neg _ (by
    simp only [beq_iff_eq]
    exact fun hc => hne hc.symm)]
  rw [find?_filter_of_imp _ _ _ (fun x hx => by
    have hmn : ((m : String) == n) = false := beq_eq_false_iff_ne.mpr hne
    rw [show x.1 = m from beq_iff_eq.mp hx, hmn]
    rfl)]

theorem hFind_hSet_self (h : Headers) (n : String) (v : List Char) :
    hFind (hSet h n v) n = some v := by
  unfold hFind hSet
  rw [List.find?_cons_of_pos _ (by simp)]
  rfl

theorem hFind_hDel_ne (h : Headers) (n m : String) (hne : m ≠ n) :
    hFind (hDel h n) m = hFind h m := by
  unfold hFind hDel
  rw [find?_filter_of_imp _ _ _ (fun x hx => by
    have hmn : ((m : String) == n) = false := beq_eq_false_iff_ne.mpr hne
    rw [show x.1 = m from beq_iff_eq.mp hx, hmn]
    rfl)]

theorem hFind_hDel_self (h : Headers) (n : String) :
    hFind (hDel h n) n = none := by
  unfold hFind hDel
  have hnone : (h.filter (fun p => !(p.1 == n))).find? (fun p => p.1 == n) = none := by
    rw [List.find?_eq_none]
    intro x hx
    have := List.of_mem_filter hx
    simp_all
  rw [hnone]
  rfl

theorem applySampling_traceId (tp : TraceParent) (s : SamplingBehavior) :
    (applySamplingBehavior tp s).traceId = tp.traceId := by
  cases s <;> rfl

theorem hFind_writeHeaders_ne (tc : TraceContext) (h : Headers) (n : String)
    (hn1 : n ≠ TraceParentHeader) (hn2 : n ≠ TraceStateHeader) :
    hFind (writeHeaders tc h) n = hFind h n := by
  have h1 : ∀ v, hFind (hSet h TraceParentHeader v) n = hFind h n :=
    fun v => hFind_hSet_ne _ _ _ _ hn1
  unfold writeHeaders
  cases tc.traceState with
  | none => exact h1 _
  | some ts =>
    show hFind (if 0 < ts.length then
        hSet (hSet h TraceParentHeader (tpString tc.traceParent))
          TraceStateHeader (tsString ts)
      else hSet h TraceParentHeader (tpString tc.traceParent)) n = hFind h n
    by_cases hl : 0 < ts.length
    · rw [if_pos hl, hFind_hSet_ne _ _ _ _ hn2]
      exact h1 _
    · rw [if_neg hl]
      exact h1 _

theorem NewTraceParent_of_valid (tid pid : List Char)
    (ht : matchTraceIdPat tid = true) (hp : matchParentIdPat pid = true) :
    NewTraceParent tid pid =
      some { version := 0, traceId := tid, parentId := pid, flags := 0 } := by
  unfold NewTraceParent
  rw [show setTraceId { version := 0, traceId := [], parentId := [], flags := 0 } tid =
      some { version := 0, traceId := tid, parentId := [], flags := 0 } from by
    unfold setTraceId
    rw [if_pos ht]]
  show setParentId { version := 0, traceId := tid, parentId := [], flags := 0 } pid =
    some { version := 0, traceId := tid, parentId := pid, flags := 0 }
  unfold setParentId
  rw [if_pos hp]

theorem generate_no_member (r : RandomDraws) (sampling : SamplingBehavior)
    (parentId t pidv : List Char)
    (ht : r.rndTrace = some t) (htOK : matchTraceIdPat t = true)
    (hsel : (if parentId.isEmpty then r.rndParent else some parentId) = some pidv)
    (hpidOK : matchParentIdPat pidv = true) :
    GenerateTraceContext r parentId none sampling =
      some { traceParent := applySamplingBehavior
               { version := 0, traceId := t, parentId := pidv, flags := 0 } sampling,
             traceState := some [] } := by
  unfold GenerateTraceContext
  rw [ht]
  simp only [Option.some_bind]
  rw [hsel]
  simp only [Option.some_bind]
  rw [NewTraceParent_of_valid _ _ htOK hpidOK]
  simp only [Option.some_bind]
  rfl

/-! ## Window lemmas for the forward-compatibility parser (claim C3) -/

theorem head?_take_pos {α : Type} (l : List α) {m : Nat} (hm : 0 < m) :
    (l.take m).head? = l.head? := by
  cases l with
  | nil => simp
  | cons a t =>
    cases m with
    | zero => exact absurd hm (by omega)
    | succ k => rfl

theorem substr_length (s : List Char) (a b : Nat) :
    (substr s a b).length = min (b - a) (s.length - a) := by
  unfold substr
  rw [List.length_take, List.length_drop]

theorem substr_substr_of_le (s : List Char) (a b i n : Nat) (h : a + i + n ≤ b) :
    substr (substr s a b) i (i + n) = substr s (a + i) (a + i + n) := by
  unfold substr
  rw [List.drop_take, List.take_take, List.drop_drop]
  congr 1
  omega

theorem head?_substr (s : List Char) (a b : Nat) (hab : a < b) :
    (substr s a b).head? = s[a]? := by
  unfold substr
  rw [head?_take_pos _ (by omega), List.head?_drop]

theorem substr_drop_head? (s : List Char) (a b j : Nat) (hj : a + j < b) :
    ((substr s a b).drop j).head? = s[a + j]? := by
  unfold substr
  rw [List.drop_take, List.drop_drop, head?_take_pos _ (by omega), List.head?_drop]

theorem allHex_head {l : List Char} {c : Char} (h : allHex l = true) (hc : l.head? = some c) :
    isLowerHexDigit c = true := by
  cases l with
  | nil => simp at hc
  | cons a t =>
    have hac : a = c := by
      simpa using hc
    subst hac
    unfold allHex at h
    rw [List.all_cons, Bool.and_eq_true] at h
    exact h.1

theorem hexRunDashAt_substr (s : List Char) (a b i n : Nat)
    (hb : a + i + n + 1 ≤ b) (hbl : b ≤ s.length) :
    hexRunDashAt (substr s a b) i n = true ↔
      (allHex (substr s (a + i) (a + i + n)) = true ∧ s[a + i + n]? = some '-') := by
  unfold hexRunDashAt
  rw [substr_substr_of_le s a b i n (by omega)]
  rw [show ((substr s a b).drop (i + n)).head? = s[a + i + n]? from by
    rw [substr_drop_head? s a b (i + n) (by omega)]
    rw [← Nat.add_assoc]]
  have hlen : (substr s (a + i) (a + i + n)).length = n := by
    rw [substr_length]
    omega
  rw [hlen]
  simp [Bool.and_eq_true, beq_iff_eq]

theorem containsHexRunDash_iff (n : Nat) (w : List Char) :
    containsHexRunDash n w = true ↔ ∃ i, i < w.length ∧ hexRunDashAt w i n = true := by
  unfold containsHexRunDash
  rw [List.any_eq_true]
  constructor
  · rintro ⟨i, hi, hAt⟩
    exact ⟨i, List.mem_range.mp hi, hAt⟩
  · rintro ⟨i, hi, hAt⟩
    exact ⟨i, List.mem_range.mpr hi, hAt⟩

theorem hexRunDashAt_bounds {w : List Char} {i n : Nat}
    (h : hexRunDashAt w i n = true) : i + n < w.length := by
  unfold hexRunDashAt at h
  simp only [Bool.and_eq_true] at h
  obtain ⟨-, hhead⟩ := h
  have hh : (w.drop (i + n)).head? = some '-' := beq_iff_eq.mp hhead
  have hne : w.drop (i + n) ≠ [] := by
    intro hc
    rw [hc] at hh
    simp at hh
  have hpos : 0 < (w.drop (i + n)).length := List.length_pos.mpr hne
  rw [List.length_drop] at hpos
  omega

theorem trace_parent_windows_iff (s : List Char) (hlen : 55 ≤ s.length) :
    (containsHexRunDash 32 (substr s 3 37) = true ∧
     containsHexRunDash 16 (substr s 36 53) = true) ↔
    (allHex (substr s 3 35) = true ∧ s[35]? = some '-' ∧
     allHex (substr s 36 52) = true ∧ s[52]? = some '-') := by
  have hw1 : (substr s 3 37).length = 34 := by
    rw [substr_length]
    omega
  have hw2 : (substr s 36 53).length = 17 := by
    rw [substr_length]
    omega
  constructor
  · rintro ⟨h1, h2⟩
    obtain ⟨j, hj, hAtj⟩ := (containsHexRunDash_iff 16 _).mp h2
    have hjb := hexRunDashAt_bounds hAtj
    rw [hw2] at hjb
    have hj0 : j = 0 := by omega
    subst hj0
    have hpar := (hexRunDashAt_substr s 36 53 0 16 (by omega) (by omega)).mp hAtj
    norm_num at hpar
    obtain ⟨i, hi, hAti⟩ := (containsHexRunDash_iff 32 _).mp h1
    have hib := hexRunDashAt_bounds hAti
    rw [hw1] at hib
    have hile : i ≤ 1 := by omega
    interval_cases i
    · have ht := (hexRunDashAt_substr s 3 37 0 32 (by omega) (by omega)).mp hAti
      norm_num at ht
      exact ⟨ht.1, ht.2, hpar.1, hpar.2⟩
    · have ht := (hexRunDashAt_substr s 3 37 1 32 (by omega) (by omega)).mp hAti
      norm_num at ht
      have hhd : (substr s 36 52).head? = s[36]? := head?_substr s 36 52 (by omega)
      rw [ht.2] at hhd
      have := allHex_head hpar.1 hhd
      exact absurd this (by decide)
  · rintro ⟨ha1, ha2, ha3, ha4⟩
    constructor
    · rw [containsHexRunDash_iff]
      refine ⟨0, by omega, ?_⟩
      rw [hexRunDashAt_substr s 3 37 0 32 (by omega) (by omega)]
      norm_num
      exact ⟨ha1, ha2⟩
    · rw [containsHexRunDash_iff]
      refine ⟨0, by omega, ?_⟩
      rw [hexRunDashAt_substr s 36 53 0 16 (by omega) (by omega)]
      norm_num
      exact ⟨ha3, ha4⟩

theorem flags_window_iff (s : List Char) (hlen : 55 ≤ s.length) :
    containsHexRun 2 (substr s 53 55) = true ↔ allHex (substr s 53 55) = true := by
  have hw : (substr s 53 55).length = 2 := by
    rw [substr_length]
    omega
  have he : substr (substr s 53 55) 0 (0 + 2) = substr s 53 55 := by
    unfold substr
    rw [List.drop_zero, List.take_take]
    norm_num
  unfold containsHexRun
  rw [List.any_eq_true]
  constructor
  · rintro ⟨i, hi, hAt⟩
    rw [Bool.and_eq_true] at hAt
    obtain ⟨hl, hall⟩ := hAt
    have hl' : (substr (substr s 53 55) i (i + 2)).length = 2 := beq_iff_eq.mp hl
    rw [substr_length, hw] at hl'
    have hi0 : i = 0 := by omega
    subst hi0
    rw [he] at hall
    exact hall
  · intro hall
    refine ⟨0, List.mem_range.mpr (by omega), ?_⟩
    rw [Bool.and_eq_true]
    refine ⟨?_, by rw [he]; exact hall⟩
    rw [he, hw]
    rfl

theorem tail_cond_iff (s : List Char) :
    (s.length == 55 || (decide (56 ≤ s.length) && ((s.drop 55).head? == some '-'))) = true ↔
      (s.length = 55 ∨ s[55]? = some '-') := by
  rw [Bool.or_eq_true, Bool.and_eq_true, beq_iff_eq, beq_iff_eq, decide_eq_true_iff,
    List.head?_drop]
  constructor
  · rintro (h | ⟨h1, h2⟩)
    · exact Or.inl h
    · exact Or.inr h2
  · rintro (h | h)
    · exact Or.inl h
    · refine Or.inr ⟨?_, h⟩
      have := (List.getElem?_eq_some.mp h).1
      omega

theorem decode_of_allHex2 (w : List Char) (hw : w.length = 2) (hall : allHex w = true) :
    ∃ fl, decodeHexByte w = some fl := by
  cases w with
  | nil => simp at hw
  | cons c1 t =>
    cases t with
    | nil => simp at hw
    | cons c2 t2 =>
      cases t2 with
      | cons c3 t3 =>
        simp only [List.length_cons] at hw
        omega
      | nil =>
        unfold allHex at hall
        rw [List.all_cons, List.all_cons, List.all_nil, Bool.and_eq_true,
          Bool.and_eq_true] at hall
        obtain ⟨h1, h2, -⟩ := hall
        refine ⟨hexVal c1 * 16 + hexVal c2, ?_⟩
        show (if isGoHexDigit c1 && isGoHexDigit c2
              then some (hexVal c1 * 16 + hexVal c2) else none) =
          some (hexVal c1 * 16 + hexVal c2)
        rw [if_pos (by
          rw [Bool.and_eq_true]
          constructor
          · unfold isGoHexDigit
            rw [h1]
            rfl
          · unfold isGoHexDigit
            rw [h2]
            rfl)]

theorem parseHigherVersion_isSome_iff (s : List Char) :
    (∃ tp, parseHigherVersion s = some tp) ↔
      (55 ≤ s.length ∧ allHex (substr s 3 35) = true ∧ s[35]? = some '-' ∧
       allHex (substr s 36 52) = true ∧ s[52]? = some '-' ∧
       allHex (substr s 53 55) = true ∧ (s.length = 55 ∨ s[55]? = some '-')) := by
  constructor
  · rintro ⟨tp, h⟩
    unfold parseHigherVersion at h
    split at h
    · exact absurd h (by simp)
    next hg1 =>
      split at h
      · exact absurd h (by simp)
      next hg2 =>
        split at h
        · exact absurd h (by simp)
        next hg3 =>
          split at h
          · exact absurd h (by simp)
          next hg4 =>
            split at h
            · exact absurd h (by simp)
            next hg5 =>
              have hl : 55 ≤ s.length := by omega
              simp only [Bool.not_eq_true', Bool.not_eq_false] at hg2 hg3 hg4 hg5
              have hwin := (trace_parent_windows_iff s hl).mp ⟨hg2, hg3⟩
              have hfl := (flags_window_iff s hl).mp hg4
              have htail := (tail_cond_iff s).mp hg5
              exact ⟨hl, hwin.1, hwin.2.1, hwin.2.2.1, hwin.2.2.2, hfl, htail⟩
  · rintro ⟨hl, h1, h2, h3, h4, h5, h6⟩
    obtain ⟨fl, hfl⟩ := decode_of_allHex2 (substr s 53 55)
      (by rw [substr_length]; omega) h5
    refine ⟨{ version := 0, traceId := substr s 3 35,
              parentId := substr s 36 52, flags := fl }, ?_⟩
    have hwin := (trace_parent_windows_iff s hl).mpr ⟨h1, h2, h3, h4⟩
    unfold parseHigherVersion
    rw [if_neg (by omega),
      if_neg (by rw [hwin.1]; simp),
      if_neg (by rw [hwin.2]; simp),
      if_neg (by rw [(flags_window_iff s hl).mpr h5]; simp),
      if_neg (by rw [(tail_cond_iff s).mpr h6]; simp),
      hfl, Option.map_some']
    rfl

theorem parseHigherVersion_result (s : List Char) (tp : TraceParent)
    (h : parseHigherVersion s = some tp) :
    tp.version = 0 ∧ tp.traceId = substr s 3 35 ∧ tp.parentId = substr s 36 52 ∧
      decodeHexByte (substr s 53 55) = some tp.flags := by
  unfold parseHigherVersion at h
  split at h
  · exact absurd h (by simp)
  · split at h
    · exact absurd h (by simp)
    · split at h
      · exact absurd h (by simp)
      · split at h
        · exact absurd h (by simp)
        · split at h
          · exact absurd h (by simp)
          · cases hdec : decodeHexByte (substr s 53 55) with
            | none =>
              rw [hdec] at h
              exact absurd h (by simp)
            | some fl =>
              rw [hdec, Option.map_some'] at h
              injection h with h'
              subst h'
              exact ⟨rfl, rfl, rfl, rfl⟩

theorem take_one_head (l : List Char) (c : Char) : l.take 1 = [c] ↔ l.head? = some c := by
  cases l <;> simp

theorem substr23_iff (s : List Char) : substr s 2 3 = ['-'] ↔ s[2]? = some '-' := by
  have h : substr s 2 3 = (s.drop 2).take 1 := rfl
  rw [h, take_one_head, List.head?_drop]

/-! ## Claim C3 -/

/-- The 55-character string whose first two characters are the hex byte 01
but whose third character is not a dash, while every positional condition
of claim C3 holds. -/
def c3sBad : List Char :=
  "01x0af7651916cd43dd8448eb211c80319c-00f067aa0ba902b7-00".toList

/-- A version-01 traceparent with a trailing vendor field, the repository
test's forward-compatibility example. -/
def c3sGood : List Char :=
  "01-0af7651916cd43dd8448eb211c80319c-00f067aa0ba902b7-01-123".toList

/-- C3 counterexample: the claim says that for a string whose first two
characters are a hex byte above 0x00 and which misses the strict pattern,
parsing succeeds iff the positional conditions from offset 3 onward hold.
The code additionally requires a dash at position 2 (the `^[a-f0-9]{2}-`
version guard) before even reading the version byte: this input satisfies
every condition of the claim yet `ParseTraceParent` rejects it. -/
theorem c3_counterexample :
    allHex (substr c3sBad 0 2) = true ∧
    decodeHexByte (substr c3sBad 0 2) = some 1 ∧
    matchTraceParentStrict c3sBad = false ∧
    (55 ≤ c3sBad.length ∧ allHex (substr c3sBad 3 35) = true ∧
     c3sBad[35]? = some '-' ∧ allHex (substr c3sBad 36 52) = true ∧
     c3sBad[52]? = some '-' ∧ allHex (substr c3sBad 53 55) = true ∧
     (c3sBad.length = 55 ∨ c3sBad[55]? = some '-')) ∧
    ParseTraceParent c3sBad = none := by
  refine ⟨by decide, by decide, by decide,
    ⟨by decide, by decide, by decide, by decide, by decide, by decide,
     Or.inl (by decide)⟩, by decide⟩

/-- C3 (amended): for every string whose first two characters are a
lowercase-hex byte greater than 0x00 *followed by a dash at position 2*
and that does not match the strict 55-character pattern, `ParseTraceParent`
succeeds iff the string is at least 55 characters long, characters 3-34
are hex with a dash at position 35, characters 36-51 are hex with a dash
at position 52, characters 53-54 are hex, and position 55 is either
end-of-string or a dash; on success the trace id, parent id and flags are
taken from those positions, the version is forced to 0x00, and trailing
fields beyond position 55 are discarded.  (Without the dash at position 2
the parse always fails, whatever the rest of the string looks like.) -/
theorem c3_forward_compat_characterization (s : List Char) (v : Nat)
    (hhex : allHex (substr s 0 2) = true)
    (hv : decodeHexByte (substr s 0 2) = some v) (hvpos : 0 < v)
    (hstrict : matchTraceParentStrict s = false) :
    ((∃ tp, ParseTraceParent s = some tp) ↔
      (s[2]? = some '-' ∧ 55 ≤ s.length ∧
       allHex (substr s 3 35) = true ∧ s[35]? = some '-' ∧
       allHex (substr s 36 52) = true ∧ s[52]? = some '-' ∧
       allHex (substr s 53 55) = true ∧ (s.length = 55 ∨ s[55]? = some '-'))) ∧
    (∀ tp, ParseTraceParent s = some tp →
      tp.version = 0 ∧ tp.traceId = substr s 3 35 ∧ tp.parentId = substr s 36 52 ∧
        decodeHexByte (substr s 53 55) = some tp.flags) := by
  by_cases hvs : matchVersionStart s = true
  · have hpp : ParseTraceParent s = parseHigherVersion s := by
      unfold ParseTraceParent
      rw [if_neg (by rw [hstrict]; simp), if_neg (by rw [hvs]; simp), hv]
      simp only [Option.some_bind]
      rw [if_pos (show HighestSupportedTraceContextVersion < v from hvpos)]
    have h2dash : s[2]? = some '-' := by
      unfold matchVersionStart at hvs
      simp only [Bool.and_eq_true] at hvs
      exact (substr23_iff s).mp (beq_iff_eq.mp hvs.2)
    constructor
    · rw [hpp, parseHigherVersion_isSome_iff]
      constructor
      · intro hc
        exact ⟨h2dash, hc⟩
      · intro hc
        exact hc.2
    · intro tp htp
      rw [hpp] at htp
      exact parseHigherVersion_result s tp htp
  · have hvs' : matchVersionStart s = false := by
      cases hb : matchVersionStart s
      · rfl
      · exact absurd hb hvs
    have hnone : ParseTraceParent s = none := by
      unfold ParseTraceParent
      rw [if_neg (by rw [hstrict]; simp), if_pos (by rw [hvs']; rfl)]
    constructor
    · rw [hnone]
      constructor
      · rintro ⟨tp, htp⟩
        exact absurd htp (by simp)
      · rintro ⟨hdash, hlen, -⟩
        exfalso
        apply hvs
        unfold matchVersionStart
        rw [Bool.and_eq_true, Bool.and_eq_true]
        refine ⟨⟨by simp; omega, hhex⟩, ?_⟩
        rw [beq_iff_eq]
        exact (substr23_iff s).mpr hdash
    · intro tp htp
      rw [hnone] at htp
      exact absurd htp (by simp)

/-- C3 witness: the amended characterization applied to the version-01
traceparent with a trailing vendor field; both positional success and the
downgraded result hold there. -/
theorem c3_forward_compat_characterization_witness :
    ((∃ tp, ParseTraceParent c3sGood = some tp) ↔
      (c3sGood[2]? = some '-' ∧ 55 ≤ c3sGood.length ∧
       allHex (substr c3sGood 3 35) = true ∧ c3sGood[35]? = some '-' ∧
       allHex (substr c3sGood 36 52) = true ∧ c3sGood[52]? = some '-' ∧
       allHex (substr c3sGood 53 55) = true ∧
       (c3sGood.length = 55 ∨ c3sGood[55]? = some '-'))) ∧
    (∀ tp, ParseTraceParent c3sGood = some tp →
      tp.version = 0 ∧ tp.traceId = substr c3sGood 3 35 ∧
        tp.parentId = substr c3sGood 36 52 ∧
        decodeHexByte (substr c3sGood 53 55) = some tp.flags) :=
  c3_forward_compat_characterization c3sGood 1
    (by decide) (by decide) (by decide) (by decide)
/-! ## Claim C5 -/

/-- The random-source outcomes used in the concrete orchestrator runs. -/
def rand0 : RandomDraws :=
  { rndTrace := some ("0123456789abcdef0123456789abcdef".toList),
    rndParent := some ("89abcdef01234567".toList) }

/-- The inbound container of the malformed-traceparent scenario: an
unparseable traceparent plus a well-formed tracestate. -/
def hdrs5 : Headers :=
  [(TraceParentHeader, "01-illegal".toList),
   (TraceStateHeader, "vendor1=val1".toList)]

/-- C5 counterexample: the claim asserts that for *every* valid member the
output of `HandleTraceContext` on a rejected traceparent carries no
tracestate header.  When a member is supplied, the generated TraceContext
holds that member and `WriteHeaders` emits it: the output *does* contain a
tracestate header (`vendor2=val2`), even though the inbound tracestate was
discarded. -/
theorem c5_counterexample :
    hGet hdrs5 TraceParentHeader ≠ [] ∧
    ParseTraceParent (hGet hdrs5 TraceParentHeader) = none ∧
    (HandleTraceContext rand0 hdrs5 []
        (some { key := "vendor2".toList, value := "val2".toList })
        SamplingBehavior.alwaysSampled).map
      (fun pr => hFind pr.1 TraceStateHeader) =
      some (some ("vendor2=val2".toList)) := by
  exact ⟨by decide, by decide, by decide⟩

/-- C5 (amended): for every header container whose traceparent header is
present but rejected by `ParseTraceParent`, every sampling behavior, a
caller parent id that is empty or valid, and a successful random source
with well-formed draws, `HandleTraceContext` with *no* member returns
without error; the returned context carries the freshly drawn trace id
(never the inbound one), the output headers carry a traceparent header
(the serialization of the new TraceParent), and the output headers carry
no tracestate header whatever the inbound tracestate was.  (When a member
is supplied, the output instead carries exactly that member as its
tracestate.) -/
theorem c5_malformed_traceparent_recovery (r : RandomDraws) (h : Headers)
    (parentId : List Char) (sampling : SamplingBehavior) (t p : List Char)
    (hpresent : hGet h TraceParentHeader ≠ [])
    (hbad : ParseTraceParent (hGet h TraceParentHeader) = none)
    (ht : r.rndTrace = some t) (htOK : matchTraceIdPat t = true)
    (hp : r.rndParent = some p) (hpOK : matchParentIdPat p = true)
    (hpid : parentId = [] ∨ matchParentIdPat parentId = true) :
    ∃ h' tc, HandleTraceContext r h parentId none sampling = some (h', tc) ∧
      tc.traceParent.traceId = t ∧
      hFind h' TraceParentHeader = some (tpString tc.traceParent) ∧
      hFind h' TraceStateHeader = none := by
  obtain ⟨pidv, hsel, hpidOK⟩ :
      ∃ pidv, (if parentId.isEmpty then r.rndParent else some parentId) = some pidv ∧
        matchParentIdPat pidv = true := by
    cases hpid with
    | inl he =>
      subst he
      exact ⟨p, by rw [if_pos (by decide)]; exact hp, hpOK⟩
    | inr hv =>
      have hne : parentId.isEmpty = false := by
        cases parentId with
        | nil => exact absurd hv (by decide)
        | cons a l => rfl
      exact ⟨parentId, by rw [if_neg (by simp [hne])], hv⟩
  have hpc : ParseTraceContext h = none := by
    unfold ParseTraceContext
    rw [hbad]
  have hgen := generate_no_member r sampling parentId t pidv ht htOK hsel hpidOK
  refine ⟨writeHeaders
      { traceParent := applySamplingBehavior
          { version := 0, traceId := t, parentId := pidv, flags := 0 } sampling,
        traceState := some [] } (hDel h TraceStateHeader),
    { traceParent := applySamplingBehavior
        { version := 0, traceId := t, parentId := pidv, flags := 0 } sampling,
      traceState := some [] }, ?_, ?_, ?_, ?_⟩
  · unfold HandleTraceContext
    rw [if_pos (bne_iff_ne.mpr hpresent), hpc]
    show (GenerateTraceContext r parentId none sampling).map
        (fun tc => (writeHeaders tc (hDel h TraceStateHeader), tc)) = _
    rw [hgen, Option.map_some']
  · exact applySampling_traceId _ _
  · show hFind (hSet (hDel h TraceStateHeader) TraceParentHeader
        (tpString (applySamplingBehavior
          { version := 0, traceId := t, parentId := pidv, flags := 0 } sampling)))
      TraceParentHeader = _
    rw [hFind_hSet_self]
  · show hFind (hSet (hDel h TraceStateHeader) TraceParentHeader
        (tpString (applySamplingBehavior
          { version := 0, traceId := t, parentId := pidv, flags := 0 } sampling)))
      TraceStateHeader = none
    rw [hFind_hSet_ne _ _ _ _ (by decide), hFind_hDel_self]

/-- C5 witness: the amended theorem applied to the malformed-traceparent
scenario of the repository's tests (member nil, AlwaysSampled). -/
theorem c5_malformed_traceparent_recovery_witness :
    ∃ h' tc, HandleTraceContext rand0 hdrs5 [] none SamplingBehavior.alwaysSampled =
        some (h', tc) ∧
      tc.traceParent.traceId = "0123456789abcdef0123456789abcdef".toList ∧
      hFind h' TraceParentHeader = some (tpString tc.traceParent) ∧
      hFind h' TraceStateHeader = none :=
  c5_malformed_traceparent_recovery rand0 hdrs5 [] SamplingBehavior.alwaysSampled
    ("0123456789abcdef0123456789abcdef".toList) ("89abcdef01234567".toList)
    (by decide) (by decide) (by decide) (by decide) (by decide) (by decide) (Or.inl rfl)

/-! ## Claim C10 -/

/-- C10: `HandleTraceContext` operates on a clone of the caller's container
(the embedding is pure, so the input value is never modified) and only sets
or deletes the traceparent and tracestate headers: on success the returned
container agrees with the input on every other header name. -/
theorem c10_frame (r : RandomDraws) (h : Headers) (parentId : List Char)
    (member : Option TraceStateMember) (sampling : SamplingBehavior)
    (h' : Headers) (tc : TraceContext)
    (hres : HandleTraceContext r h parentId member sampling = some (h', tc)) :
    ∀ n : String, n ≠ TraceParentHeader → n ≠ TraceStateHeader →
      hFind h' n = hFind h n := by
  intro n hn1 hn2
  unfold HandleTraceContext at hres
  split at hres
  · split at hres
    · cases hg : GenerateTraceContext r parentId member sampling with
      | none => rw [hg] at hres; exact absurd hres (by simp)
      | some tc0 =>
        rw [hg, Option.map_some'] at hres
        injection hres with hpr
        injection hpr with h1 h2
        rw [← h1, hFind_writeHeaders_ne _ _ _ hn1 hn2, hFind_hDel_ne _ _ _ hn2]
    · injection hres with hpr
      injection hpr with h1 h2
      rw [← h1, hFind_writeHeaders_ne _ _ _ hn1 hn2]
  · cases hg : GenerateTraceContext r parentId member sampling with
    | none => rw [hg] at hres; exact absurd hres (by simp)
    | some tc0 =>
      rw [hg, Option.map_some'] at hres
      injection hres with hpr
      injection hpr with h1 h2
      rw [← h1, hFind_writeHeaders_ne _ _ _ hn1 hn2, hFind_hDel_ne _ _ _ hn2]

/-- C10 witness: the frame theorem applied to a concrete run carrying an
unrelated header, which is preserved verbatim. -/
theorem c10_frame_witness :
    hFind ((HandleTraceContext rand0
        (("x-request-id", "abc".toList) :: hdrs5) [] none
        SamplingBehavior.passThrough).get (by decide)).1 "x-request-id" =
      hFind (("x-request-id", "abc".toList) :: hdrs5) "x-request-id" := by
  have hrun : HandleTraceContext rand0 (("x-request-id", "abc".toList) :: hdrs5) [] none
      SamplingBehavior.passThrough =
      some (((HandleTraceContext rand0 (("x-request-id", "abc".toList) :: hdrs5) [] none
        SamplingBehavior.passThrough).get (by decide)).1,
        ((HandleTraceContext rand0 (("x-request-id", "abc".toList) :: hdrs5) [] none
        SamplingBehavior.passThrough).get (by decide)).2) := by decide
  exact c10_frame rand0 (("x-request-id", "abc".toList) :: hdrs5) [] none
    SamplingBehavior.passThrough _ _ hrun "x-request-id" (by decide) (by decide)

end W3CTraceContext
